import Mathlib

/-!
# Verification of `transient-minecraft` against its specification claims

This file gives a shallow embedding, in Lean 4, of the Python sources of the
`transient-minecraft` repository (files `minecraft/server.py`,
`minecraft/cloud.py` in both the historical layout `src/minecraft/` and the
current layout `src/transient_minecraft/minecraft/`), and proves or refutes
the specification claims about it.

Modelling conventions:
* Python exceptions are modelled with `Except`/`Option`; an operation that can
  raise returns which exception it raised.
* Calls to the outside world (cloud APIs, subprocesses, the filesystem,
  `time.sleep`) are modelled as events recorded in a trace, with their results
  supplied by oracle parameters (lists or functions standing for the sequence
  of responses the outside world produces).
* `os.environ` is modelled as a function from variable names, and the
  Google Cloud Storage bucket as a list of named blobs.
-/

/-! ## `Server.start` (`transient_minecraft/minecraft/server.py`, lines 40-62)

The body of `Server.start` is a `try`/`finally`:

```
try:
    self._create_minecraft_path()
    self.cloud.get_save(self._minecraft_path)
    self._create_minecraft_eula()
    command = self._build_minecraft_cmd()
    print("Starting Minecraft server...")
    process = psutil.Popen(...)
    process.wait()
finally:
    print("Minecraft server stopped.")
    self.cloud.put_save(self._minecraft_path)
    self.cloud.kill_instance()
```

Each statement is modelled as an abstract `Step`; whether a given step raises
is supplied by the oracle `fails : Step → Bool`.  `jar selection`
(`_get_minecraft_jar`) runs inside `_build_minecraft_cmd`, so its exceptions
surface at the `buildCmd` step.  The `finally` block runs whether or not the
`try` body raised; per Python semantics an exception raised in the `finally`
block replaces the pending one, and otherwise the pending exception resumes
propagating after the `finally` block finishes. -/

inductive Step where
  | createPath
  | getSave
  | createEula
  | buildCmd
  | printStarting
  | launchServer
  | waitServer
  | printStopped
  | putSave
  | killInstance
deriving DecidableEq

/-- Run a straight-line sequence of steps: each step is attempted in order,
and the first step whose `fails` bit is set aborts the rest of the sequence.
Returns the trace of attempted steps and the raised exception (identified by
the step that raised it), if any. -/
def runSeq (fails : Step → Bool) : List Step → List Step × Option Step
  | [] => ([], none)
  | s :: rest =>
    if fails s then ([s], some s)
    else
      let r := runSeq fails rest
      (s :: r.1, r.2)

/-- The statements of the `try` body of `Server.start`, in source order. -/
def tryBody : List Step :=
  [Step.createPath, Step.getSave, Step.createEula, Step.buildCmd,
   Step.printStarting, Step.launchServer, Step.waitServer]

/-- The statements of the `finally` block of `Server.start`, in source order. -/
def finallyBody : List Step :=
  [Step.printStopped, Step.putSave, Step.killInstance]

/-- `Server.start`: run the `try` body, then the `finally` block; the overall
exception is the `finally` block's if it raised, else the `try` body's. -/
def Server.start (fails : Step → Bool) : List Step × Option Step :=
  let t := runSeq fails tryBody
  let f := runSeq fails finallyBody
  (t.1 ++ f.1, f.2.orElse fun _ => t.2)

/-! ## Instance creation (`cloud.py`: `AWSCloud.create_instance`,
`GCloud.create_instance`)

`AWSCloud.create_instance` (transient layout lines 319-374; historical layout
lines 86-123 is structurally identical) issues one `run-instances` CLI call,
then loops: it lists all instances (`describe-instances`), keeps the first
instance of each reservation whose id equals the created id, raises
`Exception("Lost instance %s" % instance_id)` when that filter is empty, and
otherwise reads `PublicIpAddress`; if it is absent it sleeps one second and
polls again.

`GCloud.create_instance` (lines 141-231) fetches the source image, issues one
`instances().insert`, then loops on `zoneOperations().get`: when the
operation's `status` is `"DONE"` it raises if the operation carries an
`error`, else leaves the loop (and fetches the instance to print its IP);
otherwise it sleeps one second and polls again.

The sequence of responses the cloud returns to the poll calls is the oracle;
the loop is modelled by structural recursion on that list, and a run whose
oracle list is exhausted before the loop exits is reported as `none` (the real
loop would still be polling). -/

/-- One instance as rendered in a `describe-instances` response (the first
element of a reservation's `Instances` array). -/
structure AwsInstanceView where
  instanceId : String
  publicIp : Option String
deriving DecidableEq

/-- External calls made by `AWSCloud.create_instance`. -/
inductive AwsEvent where
  | runInstances
  | describeInstances
  | sleepSec (n : Nat)
deriving DecidableEq

/-- The list-comprehension filter of `AWSCloud.create_instance`: the
instances in the response whose `InstanceId` equals the created one. -/
def awsMatching (iid : String) (resp : List AwsInstanceView) : List AwsInstanceView :=
  resp.filter fun v => v.instanceId == iid

/-- The polling loop of `AWSCloud.create_instance`, consuming one oracle
response per iteration. -/
def awsPollLoop (iid : String) :
    List (List AwsInstanceView) → List AwsEvent × Option (Except String String)
  | [] => ([], none)
  | resp :: rest =>
    match awsMatching iid resp with
    | [] => ([AwsEvent.describeInstances],
             some (Except.error ("Lost instance " ++ iid)))
    | v :: _ =>
      match v.publicIp with
      | some ip => ([AwsEvent.describeInstances], some (Except.ok ip))
      | none =>
        let r := awsPollLoop iid rest
        (AwsEvent.describeInstances :: AwsEvent.sleepSec 1 :: r.1, r.2)

/-- `AWSCloud.create_instance`: one `run-instances` request, then the poll
loop; on success the returned value is the instance's public IP (which the
code prints). -/
def AWSCloud.create_instance_run (iid : String) (polls : List (List AwsInstanceView)) :
    List AwsEvent × Option (Except String String) :=
  let r := awsPollLoop iid polls
  (AwsEvent.runInstances :: r.1, r.2)

/-- Decidable form of "this poll response shows the created instance without
a public IP yet" (so the loop sleeps and retries). -/
def awsNotReady (iid : String) (resp : List AwsInstanceView) : Bool :=
  match (awsMatching iid resp).head? with
  | some v => v.publicIp.isNone
  | none => false

/-- The public IP the created instance reports in a poll response, when the
instance is present and has one. -/
def awsReadyIp (iid : String) (resp : List AwsInstanceView) : Option String :=
  (awsMatching iid resp).head?.bind fun v => v.publicIp

/-- One zone-operation poll result (`zoneOperations().get`): its `status`
string and whether the body contains an `error` key. -/
structure GOperation where
  status : String
  hasError : Bool
deriving DecidableEq

/-- External calls made by the `GCloud` class. -/
inductive GcpCall where
  | getImageFromFamily
  | insertInstance
  | pollOperation
  | sleepSec (n : Nat)
  | getInstance
  | metadataGetName
  | deleteInstance (project zone instanceName : String)
deriving DecidableEq

/-- The polling loop of `GCloud.create_instance`, consuming one oracle
operation status per iteration. -/
def gcloudPollLoop : List GOperation → List GcpCall × Option (Except String Unit)
  | [] => ([], none)
  | op :: rest =>
    if op.status == "DONE" then
      if op.hasError then
        ([GcpCall.pollOperation], some (Except.error "operation error"))
      else
        ([GcpCall.pollOperation], some (Except.ok ()))
    else
      let r := gcloudPollLoop rest
      (GcpCall.pollOperation :: GcpCall.sleepSec 1 :: r.1, r.2)

/-- `GCloud.create_instance`: fetch the Debian image, one `insert` request,
then the poll loop; on success the code additionally fetches the created
instance to print its IP. -/
def GCloud.create_instance_run (ops : List GOperation) :
    List GcpCall × Option (Except String Unit) :=
  let r := gcloudPollLoop ops
  match r.2 with
  | some (Except.ok ()) =>
    (GcpCall.getImageFromFamily :: GcpCall.insertInstance :: r.1 ++ [GcpCall.getInstance],
     some (Except.ok ()))
  | other => (GcpCall.getImageFromFamily :: GcpCall.insertInstance :: r.1, other)

/-! ## Google Cloud save storage (`cloud.py` lines 233-262, 106-110)

`GCloud.put_save` zips the directory at `local_path`
(`shutil.make_archive(..., "zip", local_path)`) and uploads it to the bucket
as a blob named `self.get_timestamp()`, which is
`datetime.datetime.utcnow().strftime("%Y-%m-%d %H:%M:%S")`.

`GCloud.get_save` lists the bucket's blobs; when there are none it prints
`No existing save!` and returns; otherwise it downloads the blob
`sorted(blobs, key=lambda b: b.name)[-1]` and extracts the zip archive into
`local_path` (`zip_file.extractall(local_path)`, which overwrites entries of
the same name and leaves other files in place).

Zip archives are modelled by their list of entries (relative path, file
contents); the local filesystem maps a path to the entries of the directory
rooted there; the bucket is a list of named blobs in upload order. -/

/-- A Cloud Storage blob: its object name and the entries of the zip archive
it stores. -/
structure Blob where
  name : String
  entries : List (String × String)
deriving DecidableEq

/-- The state touched by `GCloud.get_save` / `GCloud.put_save`: the bucket,
the local filesystem, the printed log, and the names of downloaded blobs. -/
structure GStorageState where
  bucket : List Blob
  fs : String → List (String × String)
  log : List String
  downloaded : List String

/-- Lexicographic comparison of char sequences by code point: exactly how
Python's `<=` orders `str` values. -/
def charsLeB : List Char → List Char → Bool
  | [], _ => true
  | _ :: _, [] => false
  | a :: as, b :: bs =>
    if a.toNat < b.toNat then true
    else if b.toNat < a.toNat then false
    else charsLeB as bs

/-- Python string comparison, on a string's characters. -/
def pyStrLe (a b : String) : Bool := charsLeB a.data b.data

/-- The comparison underlying `sorted(blobs, key=lambda b: b.name)`. -/
def blobLe (a b : Blob) : Prop := pyStrLe a.name b.name = true

instance : DecidableRel blobLe := fun a b =>
  inferInstanceAs (Decidable (pyStrLe a.name b.name = true))

/-- `sorted(blobs, key=lambda b: b.name)[-1]`: the last element of the stable
ascending sort of the bucket by blob name. -/
def latestBlob (bucket : List Blob) : Blob :=
  (List.insertionSort blobLe bucket).getLastD ⟨"", []⟩

/-- `zip_file.extractall(local_path)` on an existing directory: archive
entries overwrite files of the same relative path and are added otherwise;
unrelated files survive. -/
def assocOverride (old new : List (String × String)) : List (String × String) :=
  (old.filter fun e => (new.lookup e.1).isNone) ++ new

/-- A point in time as `datetime.datetime.utcnow()` exposes it. -/
structure UtcTime where
  year : Nat
  month : Nat
  day : Nat
  hour : Nat
  minute : Nat
  second : Nat
deriving DecidableEq

/-- Zero-padding to two digits, as `strftime` does for `%m %d %H %M %S`. -/
def pad2 (n : Nat) : String :=
  if n < 10 then "0" ++ toString n else toString n

/-- Zero-padding to four digits, as `strftime` does for `%Y`. -/
def pad4 (n : Nat) : String :=
  if n < 10 then "000" ++ toString n
  else if n < 100 then "00" ++ toString n
  else if n < 1000 then "0" ++ toString n
  else toString n

/-- `Cloud.get_timestamp`: `utcnow().strftime("%Y-%m-%d %H:%M:%S")`. -/
def Cloud.get_timestamp (now : UtcTime) : String :=
  pad4 now.year ++ "-" ++ pad2 now.month ++ "-" ++ pad2 now.day ++ " "
    ++ pad2 now.hour ++ ":" ++ pad2 now.minute ++ ":" ++ pad2 now.second

/-- `GCloud.get_save(local_path)`. -/
def GCloud.get_save (st : GStorageState) (localPath : String) : GStorageState :=
  if st.bucket.length = 0 then
    { st with log := st.log ++ ["No existing save!"] }
  else
    let b := latestBlob st.bucket
    { bucket := st.bucket
      fs := fun p =>
        if p = localPath then assocOverride (st.fs localPath) b.entries else st.fs p
      log := st.log ++
        ["Downloading save: " ++ b.name, "Downloaded save: " ++ b.name,
         "Extracting save: " ++ b.name, "Extracted save: " ++ b.name]
      downloaded := st.downloaded ++ [b.name] }

/-- `GCloud.put_save(local_path)`. -/
def GCloud.put_save (st : GStorageState) (now : UtcTime) (localPath : String) :
    GStorageState :=
  let blobName := Cloud.get_timestamp now
  { st with
    bucket := st.bucket ++ [⟨blobName, st.fs localPath⟩]
    log := st.log ++
      ["Compressing save: " ++ blobName, "Compressed save: " ++ blobName,
       "Uploading save: " ++ blobName, "Uploaded save: " ++ blobName] }

/-- A storage state with an empty bucket and an empty local filesystem. -/
def emptyGState : GStorageState :=
  { bucket := [], fs := fun _ => [], log := [], downloaded := [] }

/-- A concrete two-blob storage state used to exercise the save round trip. -/
def sampleGState : GStorageState :=
  { bucket := [⟨"2023-01-05 10:00:00", [("world/level.dat", "old")]⟩,
               ⟨"2024-02-06 11:30:00", [("world/level.dat", "new")]⟩]
    fs := fun _ => []
    log := []
    downloaded := [] }

/-! ## Jar selection (`server.py`: `Server._get_minecraft_jar`, transient
layout lines 87-114; historical layout lines 93-124 is identical)

The method lists the `jars` directory, runs
`re.search("minecraft_server\.([\d\.]+)\.jar", file)` on each filename and
collects group 1 of each match, sorts the collected version strings with
`minecraft_versions.sort(key=StrictVersion)` — CPython precomputes every key,
so an invalid version string raises `ValueError` here — reads
`MINECRAFT_VERSION` (default `"latest"`), raises when nothing matched or a
named version is absent, and returns
`os.path.abspath(os.path.join("jars", "minecraft_server.%s.jar" % version))`
for the chosen version (the last of the sorted list for `"latest"`).

The regex is modelled exactly: `re.search` tries each start position from the
left; at a position the literal `minecraft_server.` must match, then the
greedy group `([\d.]+)` takes the longest digits-and-dots run that still
leaves a literal `.jar` to match (backtracking shortens it one character at a
time, so the longest feasible capture wins), else the engine moves one
position right.  `StrictVersion` accepts `major.minor` or
`major.minor.patch`, each component a nonempty digit string (its pre-release
suffix `[ab]\d+` is unreachable here because the capture contains only digits
and dots); it compares by the numeric triple, a missing patch being `0`.
`os.path.abspath` is an OS-dependent prefixing of the working directory and
is left out of the model: the returned path is `jars/minecraft_server.<v>.jar`. -/

/-- Whether a character is matched by the regex class `[\d\.]`. -/
def isVersionChar (c : Char) : Bool := c.isDigit || c == '.'

/-- `hasPfx p s`: the char sequence `s` starts with `p`. -/
def hasPfx : List Char → List Char → Bool
  | [], _ => true
  | _ :: _, [] => false
  | p :: ps, c :: cs => p == c && hasPfx ps cs

/-- Greedy backtracking for `([\d\.]+)\.jar`: the largest `k ≤ bound`, with
`k ≥ 1`, such that after taking `k` class characters the literal `.jar`
matches. -/
def greedyK (rest : List Char) : Nat → Option Nat
  | 0 => none
  | k + 1 =>
    if hasPfx ".jar".data (rest.drop (k + 1)) then some (k + 1)
    else greedyK rest k

/-- Match `minecraft_server\.([\d\.]+)\.jar` anchored at the start of `s`,
returning group 1. -/
def matchVersionHere (s : List Char) : Option (List Char) :=
  if hasPfx "minecraft_server.".data s then
    let rest := s.drop 17
    match greedyK rest (rest.takeWhile isVersionChar).length with
    | some k => some (rest.take k)
    | none => none
  else none

/-- `re.search` for the jar pattern: leftmost start position wins. -/
def reSearchVersion : List Char → Option (List Char)
  | [] => none
  | c :: rest =>
    match matchVersionHere (c :: rest) with
    | some v => some v
    | none => reSearchVersion rest

/-- The version strings captured from a directory listing, in listing
order (the loop body of `_get_minecraft_jar`). -/
def capturedVersions (files : List String) : List String :=
  files.filterMap fun f => (reSearchVersion f.data).map fun cs => String.mk cs

/-- Split a char sequence at every occurrence of `sep`. -/
def splitOnChar (sep : Char) : List Char → List (List Char)
  | [] => [[]]
  | c :: rest =>
    match splitOnChar sep rest with
    | [] => [[]]
    | cur :: parts =>
      if c = sep then [] :: cur :: parts else (c :: cur) :: parts

/-- A nonempty all-digit component, as `StrictVersion`'s `\d+` demands. -/
def isDigitsB (cs : List Char) : Bool := !cs.isEmpty && cs.all fun c => c.isDigit

/-- Decimal value of a digit string. -/
def digitsToNat (cs : List Char) : Nat :=
  cs.foldl (fun acc c => acc * 10 + (c.toNat - 48)) 0

/-- `distutils.version.StrictVersion` parsing, restricted to inputs made of
digits and dots (all that the jar regex can capture): `major.minor` or
`major.minor.patch`, each component a nonempty digit string; `none` models
the `ValueError` raised on anything else. -/
def parseStrictVersion (v : String) : Option (Nat × Nat × Nat) :=
  match splitOnChar '.' v.data with
  | [a, b] =>
    if isDigitsB a && isDigitsB b then some (digitsToNat a, digitsToNat b, 0)
    else none
  | [a, b, c] =>
    if isDigitsB a && isDigitsB b && isDigitsB c then
      some (digitsToNat a, digitsToNat b, digitsToNat c)
    else none
  | _ => none

/-- Lexicographic order on `StrictVersion` triples. -/
def tripleLe (a b : Nat × Nat × Nat) : Prop :=
  a.1 < b.1 ∨ (a.1 = b.1 ∧ (a.2.1 < b.2.1 ∨ (a.2.1 = b.2.1 ∧ a.2.2 ≤ b.2.2)))

instance : DecidableRel tripleLe := fun a b =>
  inferInstanceAs (Decidable (a.1 < b.1 ∨ (a.1 = b.1
    ∧ (a.2.1 < b.2.1 ∨ (a.2.1 = b.2.1 ∧ a.2.2 ≤ b.2.2)))))

/-- The sort key `StrictVersion(v)`; the default is irrelevant because the
sort is only reached when every captured version parses. -/
def svKey (v : String) : Nat × Nat × Nat := (parseStrictVersion v).getD (0, 0, 0)

/-- The comparison underlying `minecraft_versions.sort(key=StrictVersion)`. -/
def svLe (a b : String) : Prop := tripleLe (svKey a) (svKey b)

instance : DecidableRel svLe := fun a b =>
  inferInstanceAs (Decidable (tripleLe (svKey a) (svKey b)))

/-- `JARS_PATH` from `server.py`. -/
def JARS_PATH : String := "jars"

/-- `os.path.join(JARS_PATH, "minecraft_server.%s.jar" % version)`. -/
def jarPath (v : String) : String :=
  JARS_PATH ++ "/minecraft_server." ++ v ++ ".jar"

/-- `Server._get_minecraft_jar`, as a function of the `jars` directory
listing and the `MINECRAFT_VERSION` environment variable (`none` when
unset). -/
def Server._get_minecraft_jar (files : List String) (envVersion : Option String) :
    Except String String :=
  let versions := capturedVersions files
  if versions.any fun v => (parseStrictVersion v).isNone then
    Except.error "ValueError: invalid version number"
  else
    let sortedVersions := List.insertionSort svLe versions
    let preferred := envVersion.getD "latest"
    if versions.length = 0 then
      Except.error "No Minecraft versions available"
    else if preferred ≠ "latest" ∧ preferred ∉ versions then
      Except.error ("Minecraft version " ++ preferred ++ " not available")
    else
      let chosen := if preferred = "latest" then sortedVersions.getLastD "" else preferred
      Except.ok (jarPath chosen)

/-! ## Cloud construction and required environment variables
(`transient_minecraft/minecraft/cloud.py` lines 31-35, 120-134, 290-317)

`Cloud.__init__` runs `load_dotenv()` and then
`for env_var in self.required_env_vars: assert env_var in os.environ`.
The environment is modelled as the presence function over `os.environ`
after `load_dotenv` has merged the `.env` file.

`GCloud.required_env_vars` is a constant list.  `AWSCloud.required_env_vars`
is a property reading `self.needs_auth` and `self.needs_storage` — instance
attributes that `AWSCloud.__init__` assigns only *after* its
`super(AWSCloud, self).__init__()` call, which is what evaluates the
property.  Per Python semantics, reading an instance attribute before it is
assigned raises `AttributeError`; the object state therefore tracks whether
each attribute has been assigned yet. -/

/-- The Python exceptions this model distinguishes. -/
inductive PyError where
  | assertionError
  | attributeError
  | valueError
deriving DecidableEq

/-- The assertion loop of `Cloud.__init__`: the first required variable
missing from the environment raises `AssertionError`. -/
def Cloud.initCheck (vars : List String) (present : String → Bool) :
    Except PyError Unit :=
  match vars with
  | [] => Except.ok ()
  | v :: rest =>
    if present v then Cloud.initCheck rest present
    else Except.error PyError.assertionError

/-- `GCloud.required_env_vars` (lines 126-134). -/
def GCloud.required_env_vars : List String :=
  ["GCLOUD_ZONE", "GCLOUD_MACHINE_TYPE", "GCLOUD_PROJECT_ID", "GCLOUD_BUCKET",
   "GCLOUD_FIREWALL_TAG"]

/-- `GCloud.__init__`: the inherited assertion loop over the constant
variable list (the subsequent API-client construction is outside the
model). -/
def GCloud.init (present : String → Bool) : Except PyError Unit :=
  Cloud.initCheck GCloud.required_env_vars present

/-- The instance attributes of an `AWSCloud` object; `none` models an
attribute that has not been assigned yet. -/
structure AWSAttrs where
  needs_auth : Option Bool
  needs_storage : Option Bool
deriving DecidableEq

/-- `AWSCloud.required_env_vars` (lines 310-317): reads `self.needs_auth`
and, when it is falsy or after appending the auth variables,
`self.needs_storage`; reading an unassigned attribute raises
`AttributeError`. -/
def AWSCloud.required_env_vars (self : AWSAttrs) : Except PyError (List String) :=
  match self.needs_auth with
  | none => Except.error PyError.attributeError
  | some na =>
    match self.needs_storage with
    | none => Except.error PyError.attributeError
    | some ns =>
      Except.ok
        ((if na then ["AWS_ACCESS_KEY_ID", "AWS_SECRET_ACCESS_KEY", "AWS_REGION"]
          else [])
         ++ (if ns then ["AWS_S3_BUCKET", "AWS_S3_SAVE_KEY"] else []))

/-- `AWSCloud.__init__(needs_auth, needs_storage)` (lines 290-308): first
`super(AWSCloud, self).__init__()` runs on an object whose attributes are
still unassigned — it evaluates `self.required_env_vars` and then the
assertion loop — and only afterwards are `self.needs_auth` and
`self.needs_storage` assigned (the subsequent `aws configure` subprocesses
are outside the model). -/
def AWSCloud.init (needs_auth needs_storage : Bool) (present : String → Bool) :
    Except PyError AWSAttrs := do
  let fresh : AWSAttrs := ⟨none, none⟩
  let vars ← AWSCloud.required_env_vars fresh
  let _ ← Cloud.initCheck vars present
  Except.ok ⟨some needs_auth, some needs_storage⟩

/-- The variable list `AWSCloud.required_env_vars` would produce once the
attributes are assigned — what the claim (and the code's evident intent)
describes. -/
def AWSCloud.intended_env_vars (needs_auth needs_storage : Bool) : List String :=
  (if needs_auth then ["AWS_ACCESS_KEY_ID", "AWS_SECRET_ACCESS_KEY", "AWS_REGION"]
   else [])
  ++ (if needs_storage then ["AWS_S3_BUCKET", "AWS_S3_SAVE_KEY"] else [])

/-! ## Startup-script environment injection
(`transient_minecraft/minecraft/cloud.py` lines 80-104)

`Cloud.get_env_startup_script` builds
`''.join(f'{v}="{os.environ[v]}"\n' for v in self.required_env_vars)`,
base64-encodes it, forms the line `echo '<b64>' | base64 -d > .env`, splits
`self.startup_script.strip().splitlines()`, finds
`lines.index("cd transient-minecraft")` — `list.index` raises `ValueError`
when the element is absent — and rejoins the lines with the new line
inserted right after that index, each line followed by `"\n"`.

The model works on `'\n'`-separated scripts (the repository's startup
scripts), so `str.splitlines` is the `'\n'` split, except that a trailing
newline contributes no final empty line and the empty string has no lines.
`os.environ` is modelled as a total map (the variables injected are the
required ones, already asserted present at construction), and `base64` is
implemented on the string's code points, faithful for byte strings — the
roundtrip theorem below assumes code points below 256. -/

/-- The whitespace set of Python's `str.strip()`. -/
def isPyWs (c : Char) : Bool :=
  c == ' ' || c == '\t' || c == '\n' || c == '\r' || c == '\x0b' || c == '\x0c'

/-- `str.strip()`. -/
def pyStrip (s : String) : String :=
  String.mk (((s.data.dropWhile isPyWs).reverse.dropWhile isPyWs).reverse)

/-- `str.splitlines()` for `'\n'`-separated text. -/
def pySplitlines (s : String) : List String :=
  if s.data = [] then []
  else
    let parts := (splitOnChar '\n' s.data).map fun cs => String.mk cs
    if parts.getLast? = some "" then parts.dropLast else parts

/-- Python's `list.index`, returning the index of the first occurrence
(`none` models the `ValueError` raised when the element is absent). -/
def listIndex (target : String) : List String → Option Nat
  | [] => none
  | a :: rest =>
    if a = target then some 0
    else (listIndex target rest).map (· + 1)

/-- The base64 alphabet. -/
def b64chars : List Char :=
  "ABCDEFGHIJKLMNOPQRSTUVWXYZabcdefghijklmnopqrstuvwxyz0123456789+/".data

/-- The alphabet character of a 6-bit value. -/
def b64charAt (n : Nat) : Char := b64chars.getD n '?'

/-- The 6-bit value of an alphabet character. -/
def b64index (c : Char) : Nat := b64chars.indexOf c

/-- `base64.b64encode` on a byte sequence: three bytes become four alphabet
characters; a final group of one or two bytes is padded with `=`. -/
def b64encodeBytes : List Nat → List Char
  | [] => []
  | [a] => [b64charAt (a / 4), b64charAt (a % 4 * 16), '=', '=']
  | [a, b] =>
    [b64charAt (a / 4), b64charAt (a % 4 * 16 + b / 16), b64charAt (b % 16 * 4), '=']
  | a :: b :: c :: rest =>
    b64charAt (a / 4) :: b64charAt (a % 4 * 16 + b / 16)
      :: b64charAt (b % 16 * 4 + c / 64) :: b64charAt (c % 64)
      :: b64encodeBytes rest

/-- `base64 -d`: decode four characters to three bytes, fewer at a final
padded group. -/
def b64decodeChars : List Char → List Nat
  | c1 :: c2 :: c3 :: c4 :: rest =>
    if c3 = '=' then [b64index c1 * 4 + b64index c2 / 16]
    else if c4 = '=' then
      [b64index c1 * 4 + b64index c2 / 16,
       b64index c2 % 16 * 16 + b64index c3 / 4]
    else
      (b64index c1 * 4 + b64index c2 / 16)
        :: (b64index c2 % 16 * 16 + b64index c3 / 4)
        :: (b64index c3 % 4 * 64 + b64index c4)
        :: b64decodeChars rest
  | _ => []

/-- base64 of a string's code points. -/
def b64encodeStr (s : String) : String :=
  String.mk (b64encodeBytes (s.data.map Char.toNat))

/-- decoded bytes of a base64 string, as a string. -/
def b64decodeStr (s : String) : String :=
  String.mk ((b64decodeChars s.data).map Char.ofNat)

/-- `''.join(f'{v}="{os.environ[v]}"\n' for v in vars)`. -/
def envAssignments (vars : List String) (envf : String → String) : String :=
  String.join (vars.map fun v => v ++ "=\"" ++ envf v ++ "\"\n")

/-- The line `get_env_startup_script` inserts. -/
def envFileLine (vars : List String) (envf : String → String) : String :=
  "echo '" ++ b64encodeStr (envAssignments vars envf) ++ "' | base64 -d > .env"

/-- Rejoin lines, each followed by a newline, as
`"".join(f"{line}\n" for line in new_script_lines)` does. -/
def joinLines (lines : List String) : String :=
  String.join (lines.map fun l => l ++ "\n")

/-- `Cloud.get_env_startup_script`, as a function of the startup script's
text, the cloud's required variables and the environment. -/
def Cloud.get_env_startup_script (script : String) (vars : List String)
    (envf : String → String) : Except PyError String :=
  let lines := pySplitlines (pyStrip script)
  match listIndex "cd transient-minecraft" lines with
  | none => Except.error PyError.valueError
  | some cdIdx =>
    Except.ok (joinLines
      (lines.take (cdIdx + 1) ++ [envFileLine vars envf] ++ lines.drop (cdIdx + 1)))

/-! ## Instance teardown (`transient_minecraft/minecraft/cloud.py` lines
264-275, 319-347, 402-405)

`GCloud.kill_instance` reads the instance name from the metadata server
(`http://metadata.google.internal/computeMetadata/v1/instance/name`) and
issues `instances().delete` with `project = os.environ["GCLOUD_PROJECT_ID"]`,
`zone = os.environ["GCLOUD_ZONE"]` and that name.

`AWSCloud.kill_instance` runs only `sudo shutdown now`; that suffices because
`AWSCloud.create_instance` launches with
`--instance-initiated-shutdown-behavior terminate`.  The `run-instances`
command is modelled by the token list `shlex.split` produces from the
formatted command string (the startup-script URI, a `file://` path from
`tempfile`, contains no whitespace). -/

/-- `GCloud.kill_instance`, as the calls it issues given the environment and
the name the metadata server answers. -/
def GCloud.kill_instance (env : String → String) (metadataName : String) :
    List GcpCall :=
  [GcpCall.metadataGetName,
   GcpCall.deleteInstance (env "GCLOUD_PROJECT_ID") (env "GCLOUD_ZONE") metadataName]

/-- The commands `AWSCloud.kill_instance` runs. -/
def AWSCloud.kill_instance_cmds : List String := ["sudo shutdown now"]

/-- `shlex.split` of the `run-instances` command `AWSCloud.create_instance`
formats (with `IMAGE_ID`, `INSTANCE_TYPE`, the startup-script URI, `KEY_NAME`
and `SECURITY_GROUP` substituted). -/
def AWSCloud.run_instances_args (startupScriptUri : String) : List String :=
  ["python", "-m", "awscli", "ec2", "run-instances",
   "--image-id", "ami-056ee704806822732",
   "--instance-type", "t2.micro",
   "--user-data", startupScriptUri,
   "--instance-initiated-shutdown-behavior", "terminate",
   "--key-name", "id_aws",
   "--security-groups", "minecraft"]

/-! ## Helper lemmas about `runSeq` -/

theorem runSeq_fst_take (fails : Step → Bool) :
    ∀ l : List Step, ∃ n, n ≤ l.length ∧ (runSeq fails l).1 = l.take n := by
  intro l
  induction l with
  | nil => exact ⟨0, by simp [runSeq]⟩
  | cons s rest ih =>
    by_cases h : fails s
    · exact ⟨1, by simp [runSeq, h]⟩
    · obtain ⟨n, hn, htake⟩ := ih
      exact ⟨n + 1, by simpa using hn, by simp [runSeq, h, htake]⟩

theorem runSeq_of_noFail (fails : Step → Bool) :
    ∀ l : List Step, (∀ s ∈ l, fails s = false) → runSeq fails l = (l, none) := by
  intro l
  induction l with
  | nil => simp [runSeq]
  | cons s rest ih =>
    intro h
    have hs : fails s = false := h s (by simp)
    have hrest := ih fun x hx => h x (by simp [hx])
    simp [runSeq, hs, hrest]

theorem runSeq_some_mem (fails : Step → Bool) :
    ∀ l : List Step, ∀ s, (runSeq fails l).2 = some s → s ∈ (runSeq fails l).1 := by
  intro l
  induction l with
  | nil => simp [runSeq]
  | cons a rest ih =>
    intro s hs
    by_cases h : fails a
    · simp [runSeq, h] at hs ⊢
      exact hs.symm
    · simp [runSeq, h] at hs ⊢
      exact Or.inr (ih s hs)

/-- Every trace of `Server.start` is a prefix of the `try` body followed by a
prefix of the `finally` block. -/
theorem server_start_trace_shape (fails : Step → Bool) :
    ∃ n m, n ≤ 7 ∧ m ≤ 3 ∧
      (Server.start fails).1 = tryBody.take n ++ finallyBody.take m := by
  obtain ⟨n, hn, h1⟩ := runSeq_fst_take fails tryBody
  obtain ⟨m, hm, h2⟩ := runSeq_fst_take fails finallyBody
  exact ⟨n, m, hn, hm, by simp [Server.start, h1, h2]⟩

/-! ## Claim theorems for C1 and C2 -/

/-- C1: In every run of `Server.start`, the trace of attempted operations is
duplicate-free; whenever the Minecraft server process is launched, the save
was downloaded (`get_save`) strictly earlier — so `get_save` is never called
after the server process starts; whenever the instance is torn down
(`kill_instance`), the save upload (`put_save`) happened strictly earlier, and
the process wait (`process.wait()`) happened strictly before the upload — so
the code blocks until the server terminates, uploads the save after
termination, and never calls `put_save` after `kill_instance`.  In the
exception-free run the full source-order sequence executes: create the path,
download the save, create the EULA, build the command, launch, wait, then
upload the save and tear the instance down. -/
theorem c1_server_start_ordering (fails : Step → Bool) :
    (Server.start fails).1.Nodup
    ∧ (Step.launchServer ∈ (Server.start fails).1 →
        Step.getSave ∈ (Server.start fails).1 ∧
        (Server.start fails).1.indexOf Step.getSave
          < (Server.start fails).1.indexOf Step.launchServer)
    ∧ (Step.killInstance ∈ (Server.start fails).1 →
        Step.putSave ∈ (Server.start fails).1 ∧
        (Server.start fails).1.indexOf Step.putSave
          < (Server.start fails).1.indexOf Step.killInstance)
    ∧ (Step.putSave ∈ (Server.start fails).1 →
        Step.waitServer ∈ (Server.start fails).1 →
        (Server.start fails).1.indexOf Step.waitServer
          < (Server.start fails).1.indexOf Step.putSave)
    ∧ ((∀ s, fails s = false) →
        Server.start fails = (tryBody ++ finallyBody, none)) := by
  obtain ⟨n, m, hn, hm, htr⟩ := server_start_trace_shape fails
  refine ⟨?_, ?_, ?_, ?_, ?_⟩
  · rw [htr]
    interval_cases n <;> interval_cases m <;> decide
  · rw [htr]
    interval_cases n <;> interval_cases m <;> decide
  · rw [htr]
    interval_cases n <;> interval_cases m <;> decide
  · rw [htr]
    interval_cases n <;> interval_cases m <;> decide
  · intro hnf
    have h1 := runSeq_of_noFail fails tryBody fun s _ => hnf s
    have h2 := runSeq_of_noFail fails finallyBody fun s _ => hnf s
    simp [Server.start, h1, h2]

/-- C1 witness: the exception-free run executes the full sequence, with the
save download strictly before the server launch. -/
theorem c1_server_start_ordering_witness :
    Step.getSave ∈ (Server.start fun _ => false).1
    ∧ (Server.start fun _ => false).1.indexOf Step.getSave
        < (Server.start fun _ => false).1.indexOf Step.launchServer
    ∧ Server.start (fun _ => false) = (tryBody ++ finallyBody, none) := by
  have h := c1_server_start_ordering fun _ => false
  have hl : Step.launchServer ∈ (Server.start fun _ => false).1 := by decide
  exact ⟨(h.2.1 hl).1, (h.2.1 hl).2, h.2.2.2.2 fun _ => rfl⟩

/-- C2: An exception raised by any of the four fallible setup statements of
the `try` body of `Server.start` (creating the Minecraft directory,
downloading the save, creating the EULA file, or building the command — which
is where jar selection runs) is not caught: provided the `finally` block's own
statements do not raise, the very same exception is the result of
`Server.start` (the model of `main` adds no handler around `start`, so it
continues to process exit), and the failed step is attempted exactly once —
there is no retry. -/
theorem c2_server_start_exception_propagation (fails : Step → Bool) (s : Step)
    (hs : s ∈ [Step.createPath, Step.getSave, Step.createEula, Step.buildCmd])
    (hfail : (runSeq fails tryBody).2 = some s)
    (hfin : ∀ t ∈ finallyBody, fails t = false) :
    (Server.start fails).2 = some s ∧ (Server.start fails).1.count s = 1 := by
  have h2 := runSeq_of_noFail fails finallyBody hfin
  constructor
  · simp [Server.start, h2, hfail, Option.orElse]
  · have hmem : s ∈ (runSeq fails tryBody).1 := runSeq_some_mem fails tryBody s hfail
    obtain ⟨n, hn, htake⟩ := runSeq_fst_take fails tryBody
    have htrace : (Server.start fails).1 = tryBody.take n ++ finallyBody := by
      simp [Server.start, htake, h2]
    rw [htrace]
    rw [htake] at hmem
    rw [List.count_append]
    have hfin0 : (finallyBody.count s) = 0 := by
      fin_cases hs <;> decide
    have hnodup : (tryBody.take n).Nodup := by
      have h : tryBody.Nodup := by decide
      exact h.sublist (List.take_sublist n tryBody)
    have hle : (tryBody.take n).count s ≤ 1 := List.nodup_iff_count_le_one.mp hnodup s
    have hge : 1 ≤ (tryBody.take n).count s := by
      have := List.count_pos_iff.mpr hmem
      omega
    omega

/-- C2 witness: when the save download fails and the `finally` statements
succeed, the download's exception is the result of `start` and the download
was attempted exactly once. -/
theorem c2_server_start_exception_propagation_witness :
    (Server.start fun s => s == Step.getSave).2 = some Step.getSave
    ∧ (Server.start fun s => s == Step.getSave).1.count Step.getSave = 1 :=
  c2_server_start_exception_propagation (fun s => s == Step.getSave) Step.getSave
    (by decide) (by decide) (by decide)

/-! ## Helper lemmas about the instance-creation poll loops -/

theorem awsPollLoop_no_runInstances (iid : String) :
    ∀ polls, AwsEvent.runInstances ∉ (awsPollLoop iid polls).1 := by
  intro polls
  induction polls with
  | nil => simp [awsPollLoop]
  | cons resp rest ih =>
    match h : awsMatching iid resp with
    | [] => simp [awsPollLoop, h]
    | v :: vs =>
      match hip : v.publicIp with
      | some ip => simp [awsPollLoop, h, hip]
      | none => simp [awsPollLoop, h, hip]; exact ih

theorem awsPollLoop_sleep_one (iid : String) :
    ∀ polls n, AwsEvent.sleepSec n ∈ (awsPollLoop iid polls).1 → n = 1 := by
  intro polls
  induction polls with
  | nil => simp [awsPollLoop]
  | cons resp rest ih =>
    intro n hn
    match h : awsMatching iid resp with
    | [] => simp [awsPollLoop, h] at hn
    | v :: vs =>
      match hip : v.publicIp with
      | some ip => simp [awsPollLoop, h, hip] at hn
      | none =>
        simp [awsPollLoop, h, hip] at hn
        rcases hn with h1 | h1
        · exact h1
        · exact ih n h1

theorem awsPollLoop_success (iid : String) :
    ∀ pre resp ip, (∀ r ∈ pre, awsNotReady iid r = true) →
      awsReadyIp iid resp = some ip →
      awsPollLoop iid (pre ++ [resp]) =
        ((pre.map fun _ => [AwsEvent.describeInstances, AwsEvent.sleepSec 1]).flatten
          ++ [AwsEvent.describeInstances], some (Except.ok ip)) := by
  intro pre
  induction pre with
  | nil =>
    intro resp ip _ hip
    match h : awsMatching iid resp with
    | [] => simp [awsReadyIp, h] at hip
    | v :: vs =>
      simp [awsReadyIp, h] at hip
      simp [awsPollLoop, h, hip]
  | cons r pre ih =>
    intro resp ip hpre hip
    have hr : awsNotReady iid r = true := hpre r (by simp)
    match h : awsMatching iid r with
    | [] => simp [awsNotReady, h] at hr
    | v :: vs =>
      simp [awsNotReady, h, Option.isNone_iff_eq_none] at hr
      have := ih resp ip (fun x hx => hpre x (by simp [hx])) hip
      simp [awsPollLoop, h, hr, this]

theorem awsPollLoop_lost (iid : String) (resp : List AwsInstanceView)
    (rest : List (List AwsInstanceView)) (h : awsMatching iid resp = []) :
    awsPollLoop iid (resp :: rest) =
      ([AwsEvent.describeInstances], some (Except.error ("Lost instance " ++ iid))) := by
  simp [awsPollLoop, h]

theorem gcloudPollLoop_no_insert :
    ∀ ops, GcpCall.insertInstance ∉ (gcloudPollLoop ops).1 := by
  intro ops
  induction ops with
  | nil => simp [gcloudPollLoop]
  | cons op rest ih =>
    by_cases h : op.status == "DONE"
    · by_cases he : op.hasError <;> simp [gcloudPollLoop, h, he]
    · simp [gcloudPollLoop, h]; exact ih

theorem gcloudPollLoop_sleep_one :
    ∀ ops n, GcpCall.sleepSec n ∈ (gcloudPollLoop ops).1 → n = 1 := by
  intro ops
  induction ops with
  | nil => simp [gcloudPollLoop]
  | cons op rest ih =>
    intro n hn
    by_cases h : op.status == "DONE"
    · by_cases he : op.hasError <;> simp [gcloudPollLoop, h, he] at hn
    · simp [gcloudPollLoop, h] at hn
      rcases hn with h1 | h1
      · exact h1
      · exact ih n h1

theorem gcloudPollLoop_success :
    ∀ pre op, (∀ o ∈ pre, (o.status == "DONE") = false) →
      op.status = "DONE" → op.hasError = false →
      gcloudPollLoop (pre ++ [op]) =
        ((pre.map fun _ => [GcpCall.pollOperation, GcpCall.sleepSec 1]).flatten
          ++ [GcpCall.pollOperation], some (Except.ok ())) := by
  intro pre
  induction pre with
  | nil =>
    intro op _ hdone herr
    simp [gcloudPollLoop, hdone, herr]
  | cons o pre ih =>
    intro op hpre hdone herr
    have ho : (o.status == "DONE") = false := hpre o (by simp)
    have := ih op (fun x hx => hpre x (by simp [hx])) hdone herr
    simp [gcloudPollLoop, ho, this]

theorem gcloudPollLoop_error (op : GOperation) (rest : List GOperation)
    (hdone : op.status = "DONE") (herr : op.hasError = true) :
    gcloudPollLoop (op :: rest) =
      ([GcpCall.pollOperation], some (Except.error "operation error")) := by
  simp [gcloudPollLoop, hdone, herr]

/-! ## Claim theorem for C3 -/

/-- C3: Instance creation is a single create request followed by a
poll-until-ready loop with no retries and no backoff.  For AWS: every run
issues `run-instances` exactly once; every sleep in the loop is exactly one
second; when the created instance appears without a public IP for the first
`n` polls and reports an IP at poll `n + 1`, the run is exactly one
`run-instances`, then `n` unsuccessful polls each followed by a one-second
sleep, then the final poll, returning the IP (so the call returns only once
the instance is ready); and when the created id is absent from a listing, the
run raises `Lost instance <id>`.  For Google Cloud: every run issues `insert`
exactly once; every sleep is one second; when the zone operation is not
`DONE` for the first `n` polls and `DONE` without error at poll `n + 1`, the
run is the image lookup, one `insert`, `n` polls each followed by a one-second
sleep, the final poll, and the instance lookup; and a `DONE` operation that
carries an error raises. -/
theorem c3_create_instance_poll_loop :
    (∀ iid polls,
      (AWSCloud.create_instance_run iid polls).1.count AwsEvent.runInstances = 1)
    ∧ (∀ iid polls n,
        AwsEvent.sleepSec n ∈ (AWSCloud.create_instance_run iid polls).1 → n = 1)
    ∧ (∀ iid pre resp ip, (∀ r ∈ pre, awsNotReady iid r = true) →
        awsReadyIp iid resp = some ip →
        AWSCloud.create_instance_run iid (pre ++ [resp]) =
          (AwsEvent.runInstances ::
            ((pre.map fun _ => [AwsEvent.describeInstances, AwsEvent.sleepSec 1]).flatten
              ++ [AwsEvent.describeInstances]), some (Except.ok ip)))
    ∧ (∀ iid resp rest, awsMatching iid resp = [] →
        (AWSCloud.create_instance_run iid (resp :: rest)).2 =
          some (Except.error ("Lost instance " ++ iid)))
    ∧ (∀ ops, (GCloud.create_instance_run ops).1.count GcpCall.insertInstance = 1)
    ∧ (∀ ops n, GcpCall.sleepSec n ∈ (GCloud.create_instance_run ops).1 → n = 1)
    ∧ (∀ pre op, (∀ o ∈ pre, (o.status == "DONE") = false) →
        op.status = "DONE" → op.hasError = false →
        GCloud.create_instance_run (pre ++ [op]) =
          (GcpCall.getImageFromFamily :: GcpCall.insertInstance ::
            (((pre.map fun _ => [GcpCall.pollOperation, GcpCall.sleepSec 1]).flatten
              ++ [GcpCall.pollOperation]) ++ [GcpCall.getInstance]),
           some (Except.ok ())))
    ∧ (∀ op rest, op.status = "DONE" → op.hasError = true →
        (GCloud.create_instance_run (op :: rest)).2 =
          some (Except.error "operation error")) := by
  refine ⟨?_, ?_, ?_, ?_, ?_, ?_, ?_, ?_⟩
  · intro iid polls
    have hno := awsPollLoop_no_runInstances iid polls
    simp [AWSCloud.create_instance_run, List.count_cons,
      List.count_eq_zero_of_not_mem hno]
  · intro iid polls n hn
    simp [AWSCloud.create_instance_run] at hn
    exact awsPollLoop_sleep_one iid polls n hn
  · intro iid pre resp ip hpre hip
    have := awsPollLoop_success iid pre resp ip hpre hip
    simp [AWSCloud.create_instance_run, this]
  · intro iid resp rest h
    simp [AWSCloud.create_instance_run, awsPollLoop_lost iid resp rest h]
  · intro ops
    have hno := gcloudPollLoop_no_insert ops
    rcases hr : (gcloudPollLoop ops).2 with _ | r
    · simp [GCloud.create_instance_run, hr, List.count_cons,
        List.count_eq_zero_of_not_mem hno]
    · rcases r with e | u
      · simp [GCloud.create_instance_run, hr, List.count_cons,
          List.count_eq_zero_of_not_mem hno]
      · simp [GCloud.create_instance_run, hr, List.count_append, List.count_cons,
          List.count_eq_zero_of_not_mem hno]
  · intro ops n hn
    rcases hr : (gcloudPollLoop ops).2 with _ | r
    · simp [GCloud.create_instance_run, hr] at hn
      exact gcloudPollLoop_sleep_one ops n hn
    · rcases r with e | u
      · simp [GCloud.create_instance_run, hr] at hn
        exact gcloudPollLoop_sleep_one ops n hn
      · simp [GCloud.create_instance_run, hr] at hn
        exact gcloudPollLoop_sleep_one ops n hn
  · intro pre op hpre hdone herr
    have h := gcloudPollLoop_success pre op hpre hdone herr
    simp [GCloud.create_instance_run, h]
  · intro op rest hdone herr
    simp [GCloud.create_instance_run, gcloudPollLoop_error op rest hdone herr]

/-- C3 witness: a concrete AWS run that polls twice (one sleep) before the IP
appears, and a concrete Google Cloud run that polls twice (one sleep) before
the operation is `DONE`. -/
theorem c3_create_instance_poll_loop_witness :
    AWSCloud.create_instance_run "i-1"
        [[⟨"i-1", none⟩], [⟨"i-1", some "203.0.113.5"⟩]] =
      (AwsEvent.runInstances :: [AwsEvent.describeInstances, AwsEvent.sleepSec 1,
        AwsEvent.describeInstances], some (Except.ok "203.0.113.5"))
    ∧ GCloud.create_instance_run [⟨"RUNNING", false⟩, ⟨"DONE", false⟩] =
      (GcpCall.getImageFromFamily :: GcpCall.insertInstance ::
        [GcpCall.pollOperation, GcpCall.sleepSec 1, GcpCall.pollOperation,
         GcpCall.getInstance], some (Except.ok ())) := by
  have h := c3_create_instance_poll_loop
  constructor
  · have := h.2.2.1 "i-1" [[⟨"i-1", none⟩]] [⟨"i-1", some "203.0.113.5"⟩]
      "203.0.113.5" (by decide) (by decide)
    simpa using this
  · have := h.2.2.2.2.2.2.1 [⟨"RUNNING", false⟩] ⟨"DONE", false⟩
      (by decide) rfl rfl
    simpa using this

/-! ## Helper lemmas about sorted lists -/

theorem charsLeB_refl : ∀ l : List Char, charsLeB l l = true := by
  intro l
  induction l with
  | nil => rfl
  | cons a as ih => simp [charsLeB, ih]

theorem charsLeB_total : ∀ a b : List Char, charsLeB a b = true ∨ charsLeB b a = true := by
  intro a
  induction a with
  | nil => intro b; left; rfl
  | cons x as ih =>
    intro b
    cases b with
    | nil => right; rfl
    | cons y bs =>
      rcases Nat.lt_trichotomy x.toNat y.toNat with h | h | h
      · left; simp [charsLeB, h]
      · rcases ih bs with h1 | h1
        · left; simp [charsLeB, h, h1]
        · right; simp [charsLeB, h.symm, h1]
      · right; simp [charsLeB, h]

theorem charsLeB_trans :
    ∀ a b c : List Char, charsLeB a b = true → charsLeB b c = true →
      charsLeB a c = true := by
  intro a
  induction a with
  | nil => intro b c _ _; rfl
  | cons x as ih =>
    intro b c hab hbc
    cases b with
    | nil => simp [charsLeB] at hab
    | cons y bs =>
      cases c with
      | nil => simp [charsLeB] at hbc
      | cons z cs =>
        simp only [charsLeB] at hab hbc ⊢
        by_cases hxy : x.toNat < y.toNat
        · by_cases hyz : y.toNat < z.toNat
          · simp [show x.toNat < z.toNat by omega]
          · by_cases hzy : z.toNat < y.toNat
            · simp [hyz, hzy] at hbc
            · simp [show x.toNat < z.toNat by omega]
        · by_cases hyx : y.toNat < x.toNat
          · simp [hxy, hyx] at hab
          · by_cases hyz : y.toNat < z.toNat
            · simp [show x.toNat < z.toNat by omega]
            · by_cases hzy : z.toNat < y.toNat
              · simp [hyz, hzy] at hbc
              · simp [hxy, hyx] at hab
                simp [hyz, hzy] at hbc
                simp [show ¬ x.toNat < z.toNat by omega,
                      show ¬ z.toNat < x.toNat by omega]
                exact ih bs cs hab hbc

instance : IsRefl Blob blobLe := ⟨fun a => charsLeB_refl a.name.data⟩

instance : IsTotal Blob blobLe := ⟨fun a b => charsLeB_total a.name.data b.name.data⟩

instance : IsTrans Blob blobLe :=
  ⟨fun _ _ _ h1 h2 => charsLeB_trans _ _ _ h1 h2⟩

theorem getLastD_mem_of_ne_nil {α : Type} :
    ∀ (l : List α) (d : α), l ≠ [] → l.getLastD d ∈ l := by
  intro l
  induction l with
  | nil => intro d h; exact absurd rfl h
  | cons a t ih =>
    intro d _
    cases t with
    | nil => simp
    | cons b t' =>
      have h1 := ih a (by simp)
      simp only [List.getLastD_cons] at h1 ⊢
      exact List.mem_cons_of_mem a h1

theorem sorted_rel_getLastD {α : Type} {r : α → α → Prop} [IsRefl α r] :
    ∀ (l : List α) (d : α), l.Sorted r → ∀ x ∈ l, r x (l.getLastD d) := by
  intro l
  induction l with
  | nil => intro d _ x hx; cases hx
  | cons a t ih =>
    intro d hs x hx
    rw [List.sorted_cons] at hs
    obtain ⟨ha, ht⟩ := hs
    cases t with
    | nil =>
      have hxa : x = a := by simpa using hx
      subst hxa
      simpa using IsRefl.refl x
    | cons b t' =>
      have hmem : t'.getLastD b ∈ b :: t' := by
        have h1 := getLastD_mem_of_ne_nil (b :: t') b (by simp)
        simpa only [List.getLastD_cons] using h1
      simp only [List.getLastD_cons]
      rcases List.mem_cons.mp hx with hxa | hxt
      · subst hxa
        exact ha _ hmem
      · have h2 := ih b ht x hxt
        simpa only [List.getLastD_cons] using h2

/-- The last element of the name-sorted bucket is a bucket member whose name
is greatest. -/
theorem latestBlob_spec (bucket : List Blob) (h : bucket ≠ []) :
    latestBlob bucket ∈ bucket
    ∧ ∀ b ∈ bucket, pyStrLe b.name (latestBlob bucket).name = true := by
  have hperm := List.perm_insertionSort blobLe bucket
  have hsorted := List.sorted_insertionSort blobLe bucket
  have hne : List.insertionSort blobLe bucket ≠ [] := by
    intro hc
    apply h
    have hlen := hperm.length_eq
    rw [hc] at hlen
    exact List.length_eq_zero.mp hlen.symm
  constructor
  · exact hperm.mem_iff.mp (getLastD_mem_of_ne_nil _ _ hne)
  · intro b hb
    exact sorted_rel_getLastD _ _ hsorted b (hperm.mem_iff.mpr hb)

/-! ## Claim theorems for C4 and C9 -/

/-- C4: Google Cloud save storage is zip-based and restores the most recent
save.  `put_save` appends to the bucket exactly one new blob holding the
archive of the directory at `local_path`, named by `get_timestamp` — which by
construction renders the current UTC time as
`<YYYY>-<MM>-<DD> <hh>:<mm>:<ss>`, i.e. `%Y-%m-%d %H:%M:%S` — and leaves the
local filesystem alone.  `get_save` on a non-empty bucket downloads exactly
the blob whose name sorts last (a bucket member whose name is greatest in the
sort order) and extracts its archive into `local_path`, leaving every other
path and the bucket unchanged. -/
theorem c4_gcloud_save_roundtrip :
    (∀ st now p,
      (GCloud.put_save st now p).bucket =
        st.bucket ++ [⟨Cloud.get_timestamp now, st.fs p⟩]
      ∧ (GCloud.put_save st now p).fs = st.fs)
    ∧ (∀ st p, st.bucket ≠ [] →
        latestBlob st.bucket ∈ st.bucket
        ∧ (∀ b ∈ st.bucket, pyStrLe b.name (latestBlob st.bucket).name = true)
        ∧ (GCloud.get_save st p).downloaded =
            st.downloaded ++ [(latestBlob st.bucket).name]
        ∧ (GCloud.get_save st p).fs p =
            assocOverride (st.fs p) (latestBlob st.bucket).entries
        ∧ (∀ q, q ≠ p → (GCloud.get_save st p).fs q = st.fs q)
        ∧ (GCloud.get_save st p).bucket = st.bucket) := by
  constructor
  · intro st now p
    exact ⟨rfl, rfl⟩
  · intro st p h
    have hlen : ¬ st.bucket.length = 0 := by
      simpa [List.length_eq_zero] using h
    obtain ⟨hmem, hmax⟩ := latestBlob_spec st.bucket h
    refine ⟨hmem, hmax, ?_, ?_, ?_, ?_⟩
    · simp [GCloud.get_save, hlen]
    · simp [GCloud.get_save, hlen]
    · intro q hq
      simp [GCloud.get_save, hlen, hq]
    · simp [GCloud.get_save, hlen]

/-- C4 witness: on a bucket holding saves from 2023 and 2024, `get_save`
downloads the 2024 blob (the name sorting last) and extracts its entries. -/
theorem c4_gcloud_save_roundtrip_witness :
    sampleGState.bucket ≠ []
    ∧ latestBlob sampleGState.bucket ∈ sampleGState.bucket
    ∧ (latestBlob sampleGState.bucket).name = "2024-02-06 11:30:00"
    ∧ (GCloud.get_save sampleGState "/opt/minecraft").downloaded =
        sampleGState.downloaded ++ [(latestBlob sampleGState.bucket).name]
    ∧ (GCloud.get_save sampleGState "/opt/minecraft").fs "/opt/minecraft" =
        assocOverride (sampleGState.fs "/opt/minecraft")
          (latestBlob sampleGState.bucket).entries := by
  have h := c4_gcloud_save_roundtrip.2 sampleGState "/opt/minecraft" (by decide)
  exact ⟨by decide, h.1, by decide, h.2.2.1, h.2.2.2.1⟩

/-- C9: When the bucket holds no blobs, `GCloud.get_save` prints
`No existing save!` and returns normally: it raises nothing (the model is a
total function), records no download, and leaves the bucket and every local
path untouched — only the log gains the one line. -/
theorem c9_gcloud_get_save_empty_bucket (st : GStorageState) (p : String)
    (h : st.bucket = []) :
    GCloud.get_save st p = { st with log := st.log ++ ["No existing save!"] } := by
  simp [GCloud.get_save, h]

/-- C9 witness: `get_save` on the empty-bucket state only logs the message. -/
theorem c9_gcloud_get_save_empty_bucket_witness :
    emptyGState.bucket = []
    ∧ GCloud.get_save emptyGState "/opt/minecraft" =
        { emptyGState with log := emptyGState.log ++ ["No existing save!"] } :=
  ⟨rfl, c9_gcloud_get_save_empty_bucket emptyGState "/opt/minecraft" rfl⟩

/-! ## Helper lemmas about the jar-version sort -/

instance : IsRefl String svLe :=
  ⟨fun _ => Or.inr ⟨rfl, Or.inr ⟨rfl, le_refl _⟩⟩⟩

instance : IsTotal String svLe :=
  ⟨fun a b => by unfold svLe tripleLe; omega⟩

instance : IsTrans String svLe :=
  ⟨fun a b c h1 h2 => by unfold svLe tripleLe at h1 h2 ⊢; omega⟩

/-- The last element of the `StrictVersion`-sorted version list is a member
whose key is greatest. -/
theorem sortedVersions_spec (versions : List String) (h : versions ≠ []) :
    (List.insertionSort svLe versions).getLastD "" ∈ versions
    ∧ ∀ w ∈ versions, svLe w ((List.insertionSort svLe versions).getLastD "") := by
  have hperm := List.perm_insertionSort svLe versions
  have hsorted := List.sorted_insertionSort svLe versions
  have hne : List.insertionSort svLe versions ≠ [] := by
    intro hc
    apply h
    have hlen := hperm.length_eq
    rw [hc] at hlen
    exact List.length_eq_zero.mp hlen.symm
  constructor
  · exact hperm.mem_iff.mp (getLastD_mem_of_ne_nil _ _ hne)
  · intro w hw
    exact sorted_rel_getLastD _ _ hsorted w (hperm.mem_iff.mpr hw)

/-! ## Claim theorems for C5 -/

/-- C5 counterexample: the file `minecraft_server.1.jar` matches the regex
(the capture group takes `1`), and the environment requests the default
`latest`, yet `_get_minecraft_jar` raises: `list.sort(key=StrictVersion)`
computes `StrictVersion("1")`, which raises `ValueError` because a strict
version needs at least `major.minor`.  The claim's "raises if and only if no
filename matches the pattern, or the requested version is not `latest` and
is not among the matched versions" therefore fails on this input: neither
disjunct holds, yet the call raises. -/
theorem c5_get_minecraft_jar_counterexample :
    capturedVersions ["minecraft_server.1.jar"] = ["1"]
    ∧ Server._get_minecraft_jar ["minecraft_server.1.jar"] none =
        Except.error "ValueError: invalid version number" :=
  ⟨rfl, rfl⟩

/-- C5 (amended): provided every captured version string parses as a
`StrictVersion` (without that proviso the sort key raises `ValueError`, as
the counterexample shows), `_get_minecraft_jar` raises iff no filename
matched the pattern or the requested version is neither `latest` nor among
the matched versions; with `MINECRAFT_VERSION` unset or `latest` it returns
the jar path of a matched version maximal in `StrictVersion` order; and with
`MINECRAFT_VERSION` naming a matched version it returns that version's jar
path. -/
theorem c5_get_minecraft_jar_amended (files : List String) (envVersion : Option String)
    (hvalid : ∀ v ∈ capturedVersions files, (parseStrictVersion v).isSome = true) :
    ((∃ e, Server._get_minecraft_jar files envVersion = Except.error e) ↔
      (capturedVersions files = []
        ∨ (envVersion.getD "latest" ≠ "latest"
            ∧ envVersion.getD "latest" ∉ capturedVersions files)))
    ∧ (capturedVersions files ≠ [] → envVersion.getD "latest" = "latest" →
        ∃ v, v ∈ capturedVersions files
          ∧ (∀ w ∈ capturedVersions files, svLe w v)
          ∧ Server._get_minecraft_jar files envVersion = Except.ok (jarPath v))
    ∧ (envVersion.getD "latest" ≠ "latest" →
        envVersion.getD "latest" ∈ capturedVersions files →
        Server._get_minecraft_jar files envVersion =
          Except.ok (jarPath (envVersion.getD "latest"))) := by
  have hisNone : ∀ v ∈ capturedVersions files, (parseStrictVersion v).isNone = false := by
    intro v hv
    have h1 := hvalid v hv
    cases hpv : parseStrictVersion v
    · rw [hpv] at h1; cases h1
    · rfl
  have hany : ((capturedVersions files).any fun v => (parseStrictVersion v).isNone) = false := by
    cases hA : (capturedVersions files).any fun v => (parseStrictVersion v).isNone
    · rfl
    · obtain ⟨v, hv, hpv⟩ := List.any_eq_true.mp hA
      rw [hisNone v hv] at hpv
      cases hpv
  by_cases hnil : capturedVersions files = []
  · have hlen : (capturedVersions files).length = 0 := by simp [hnil]
    refine ⟨?_, ?_, ?_⟩
    · constructor
      · intro _
        exact Or.inl hnil
      · intro _
        exact ⟨"No Minecraft versions available",
          by simp [Server._get_minecraft_jar, hany, hlen]⟩
    · intro h
      exact absurd hnil h
    · intro _ hmem
      rw [hnil] at hmem
      cases hmem
  · have hlen : ¬ (capturedVersions files).length = 0 := by
      simpa [List.length_eq_zero] using hnil
    by_cases hp : envVersion.getD "latest" = "latest"
    · have hcond : ¬ (envVersion.getD "latest" ≠ "latest"
          ∧ envVersion.getD "latest" ∉ capturedVersions files) := fun hc => hc.1 hp
      obtain ⟨hmem, hmax⟩ := sortedVersions_spec (capturedVersions files) hnil
      have hres : Server._get_minecraft_jar files envVersion =
          Except.ok (jarPath ((List.insertionSort svLe (capturedVersions files)).getLastD "")) := by
        simp [Server._get_minecraft_jar, hany, hlen, hcond, hp]
      refine ⟨?_, ?_, ?_⟩
      · constructor
        · rintro ⟨e, he⟩
          rw [hres] at he
          cases he
        · rintro (h | h)
          · exact absurd h hnil
          · exact absurd hp h.1
      · intro _ _
        exact ⟨_, hmem, hmax, hres⟩
      · intro h
        exact absurd hp h
    · by_cases hm : envVersion.getD "latest" ∈ capturedVersions files
      · have hcond : ¬ (envVersion.getD "latest" ≠ "latest"
            ∧ envVersion.getD "latest" ∉ capturedVersions files) := fun hc => hc.2 hm
        have hres : Server._get_minecraft_jar files envVersion =
            Except.ok (jarPath (envVersion.getD "latest")) := by
          simp [Server._get_minecraft_jar, hany, hlen, hcond, hp, hm]
        refine ⟨?_, ?_, ?_⟩
        · constructor
          · rintro ⟨e, he⟩
            rw [hres] at he
            cases he
          · rintro (h | h)
            · exact absurd h hnil
            · exact absurd hm h.2
        · intro _ hlat
          exact absurd hlat hp
        · intro _ _
          exact hres
      · have hcond : envVersion.getD "latest" ≠ "latest"
            ∧ envVersion.getD "latest" ∉ capturedVersions files := ⟨hp, hm⟩
        have hres : Server._get_minecraft_jar files envVersion =
            Except.error ("Minecraft version " ++ envVersion.getD "latest" ++ " not available") := by
          simp [Server._get_minecraft_jar, hany, hlen, hcond, hp, hm]
        refine ⟨?_, ?_, ?_⟩
        · constructor
          · intro _
            exact Or.inr hcond
          · intro _
            exact ⟨_, hres⟩
        · intro _ hlat
          exact absurd hlat hp
        · intro _ hmem
          exact absurd hmem hm
/-- C5 witness: with jars for `1.2` and `1.10` plus an unrelated file, the
default run picks `1.10` — the `StrictVersion` maximum, although `"1.10"`
sorts below `"1.2"` as a string — and pinning `MINECRAFT_VERSION=1.2` picks
`1.2`. -/
theorem c5_get_minecraft_jar_amended_witness :
    capturedVersions ["minecraft_server.1.2.jar", "minecraft_server.1.10.jar", "junk.txt"]
      = ["1.2", "1.10"]
    ∧ Server._get_minecraft_jar
        ["minecraft_server.1.2.jar", "minecraft_server.1.10.jar", "junk.txt"] none
      = Except.ok (jarPath "1.10")
    ∧ Server._get_minecraft_jar
        ["minecraft_server.1.2.jar", "minecraft_server.1.10.jar", "junk.txt"] (some "1.2")
      = Except.ok (jarPath "1.2") := by
  refine ⟨rfl, rfl, ?_⟩
  exact (c5_get_minecraft_jar_amended
    ["minecraft_server.1.2.jar", "minecraft_server.1.10.jar", "junk.txt"]
    (some "1.2") (by decide)).2.2 (by decide) (by decide)

/-! ## Helper lemmas about the environment-variable assertion loop -/

theorem initCheck_ok_iff (present : String → Bool) :
    ∀ vars : List String,
      Cloud.initCheck vars present = Except.ok () ↔ ∀ v ∈ vars, present v = true := by
  intro vars
  induction vars with
  | nil => simp [Cloud.initCheck]
  | cons v rest ih =>
    by_cases h : present v
    · simp [Cloud.initCheck, h, ih]
    · simp [Cloud.initCheck, h]

theorem initCheck_error_of_missing (present : String → Bool) :
    ∀ vars : List String, (¬ ∀ v ∈ vars, present v = true) →
      Cloud.initCheck vars present = Except.error PyError.assertionError := by
  intro vars
  induction vars with
  | nil => intro h; exact absurd (by simp) h
  | cons v rest ih =>
    intro h
    by_cases hv : present v
    · have : ¬ ∀ x ∈ rest, present x = true := by
        intro hc
        exact h fun x hx => by
          rcases List.mem_cons.mp hx with h1 | h1
          · exact h1 ▸ hv
          · exact hc x h1
      simp [Cloud.initCheck, hv, ih this]
    · simp [Cloud.initCheck, hv]

/-! ## Claim theorem for C6 -/

/-- C6: For `GCloud` the claim holds: construction succeeds exactly when all
five `GCLOUD_*` variables are present, and a missing one makes the inherited
assertion loop fail with `AssertionError`.  For `AWSCloud` the code has a
bug, which this theorem exhibits: `__init__` calls
`super(AWSCloud, self).__init__()` *before* assigning `self.needs_auth` and
`self.needs_storage`, yet the superclass constructor evaluates
`self.required_env_vars`, whose first statement reads `self.needs_auth`; so
every construction of `AWSCloud` — whatever the flags and however complete
the environment — raises `AttributeError` instead of performing the claimed
assertion check.  (The `AWSCloud.intended_env_vars` definition records the
variable list the claim — and the property's evident intent — describes.) -/
theorem c6_cloud_env_var_check :
    (∀ present, GCloud.init present = Except.ok () ↔
        ∀ v ∈ GCloud.required_env_vars, present v = true)
    ∧ (∀ present, (¬ ∀ v ∈ GCloud.required_env_vars, present v = true) →
        GCloud.init present = Except.error PyError.assertionError)
    ∧ (∀ needs_auth needs_storage present,
        AWSCloud.init needs_auth needs_storage present =
          Except.error PyError.attributeError)
    ∧ (∀ needs_storage,
        AWSCloud.intended_env_vars false needs_storage =
          if needs_storage then ["AWS_S3_BUCKET", "AWS_S3_SAVE_KEY"] else [])
    ∧ (AWSCloud.intended_env_vars true true =
        ["AWS_ACCESS_KEY_ID", "AWS_SECRET_ACCESS_KEY", "AWS_REGION",
         "AWS_S3_BUCKET", "AWS_S3_SAVE_KEY"]) := by
  refine ⟨?_, ?_, ?_, ?_, rfl⟩
  · intro present
    exact initCheck_ok_iff present GCloud.required_env_vars
  · intro present h
    exact initCheck_error_of_missing present GCloud.required_env_vars h
  · intro needs_auth needs_storage present
    rfl
  · intro needs_storage
    cases needs_storage <;> rfl

/-- C6 witness: with every variable present `GCloud` constructs; with
`GCLOUD_BUCKET` absent it fails the assertion; and `AWSCloud()` (the default
flags `main` uses) raises `AttributeError` even in a complete
environment. -/
theorem c6_cloud_env_var_check_witness :
    GCloud.init (fun _ => true) = Except.ok ()
    ∧ GCloud.init (fun v => v != "GCLOUD_BUCKET") = Except.error PyError.assertionError
    ∧ AWSCloud.init false true (fun _ => true) = Except.error PyError.attributeError := by
  have h := c6_cloud_env_var_check
  exact ⟨(h.1 _).mpr (by decide), h.2.1 _ (by decide), h.2.2.1 false true _⟩

/-! ## Helper lemmas about base64 and `list.index` -/

theorem b64index_b64charAt : ∀ n, n < 64 → b64index (b64charAt n) = n := by decide

theorem b64charAt_ne_pad : ∀ n, n < 64 → ¬ b64charAt n = '=' := by decide

theorem b64decode_b64encode :
    ∀ bs : List Nat, (∀ b ∈ bs, b < 256) → b64decodeChars (b64encodeBytes bs) = bs
  | [], _ => rfl
  | [a], h => by
    have ha : a < 256 := h a (by simp)
    have h1 := b64index_b64charAt (a / 4) (by omega)
    have h2 := b64index_b64charAt (a % 4 * 16) (by omega)
    simp [b64encodeBytes, b64decodeChars, h1, h2]
    omega
  | [a, b], h => by
    have ha : a < 256 := h a (by simp)
    have hb : b < 256 := h b (by simp)
    have h1 := b64index_b64charAt (a / 4) (by omega)
    have h2 := b64index_b64charAt (a % 4 * 16 + b / 16) (by omega)
    have h3 := b64index_b64charAt (b % 16 * 4) (by omega)
    have hne := b64charAt_ne_pad (b % 16 * 4) (by omega)
    simp [b64encodeBytes, b64decodeChars, hne, h1, h2, h3]
    omega
  | a :: b :: c :: rest, h => by
    have ha : a < 256 := h a (by simp)
    have hb : b < 256 := h b (by simp)
    have hc : c < 256 := h c (by simp)
    have ih := b64decode_b64encode rest fun x hx => h x (by simp [hx])
    have h1 := b64index_b64charAt (a / 4) (by omega)
    have h2 := b64index_b64charAt (a % 4 * 16 + b / 16) (by omega)
    have h3 := b64index_b64charAt (b % 16 * 4 + c / 64) (by omega)
    have h4 := b64index_b64charAt (c % 64) (by omega)
    have hne3 := b64charAt_ne_pad (b % 16 * 4 + c / 64) (by omega)
    have hne4 := b64charAt_ne_pad (c % 64) (by omega)
    simp [b64encodeBytes, b64decodeChars, hne3, hne4, h1, h2, h3, h4, ih]
    omega

theorem b64decodeStr_b64encodeStr (s : String)
    (h : ∀ c ∈ s.data, c.toNat < 256) : b64decodeStr (b64encodeStr s) = s := by
  have hb : ∀ x ∈ s.data.map Char.toNat, x < 256 := by
    intro x hx
    obtain ⟨c, hc, rfl⟩ := List.mem_map.mp hx
    exact h c hc
  unfold b64decodeStr b64encodeStr
  rw [show (String.mk (b64encodeBytes (s.data.map Char.toNat))).data
      = b64encodeBytes (s.data.map Char.toNat) from rfl]
  rw [b64decode_b64encode _ hb, List.map_map]
  have : (Char.ofNat ∘ Char.toNat) = id := by
    funext c
    exact Char.ofNat_toNat c
  rw [this, List.map_id]

theorem listIndex_eq_none_iff (target : String) :
    ∀ l : List String, listIndex target l = none ↔ target ∉ l := by
  intro l
  induction l with
  | nil => simp [listIndex]
  | cons a rest ih =>
    by_cases h : a = target
    · simp [listIndex, h]
    · have h2 : ¬ target = a := fun hc => h hc.symm
      simp [listIndex, h, h2, ih]

theorem listIndex_some_spec (target : String) :
    ∀ (l : List String) (i : Nat), listIndex target l = some i →
      l.getD i "" = target ∧ ∀ j, j < i → l.getD j "" ≠ target := by
  intro l
  induction l with
  | nil => intro i h; cases h
  | cons a rest ih =>
    intro i h
    by_cases ha : a = target
    · simp [listIndex, ha] at h
      subst h
      exact ⟨ha, by omega⟩
    · simp [listIndex, ha] at h
      obtain ⟨i', hi', rfl⟩ := h
      obtain ⟨hget, hlt⟩ := ih i' hi'
      refine ⟨hget, ?_⟩
      intro j hj
      cases j with
      | zero => simpa using ha
      | succ j' => exact hlt j' (by omega)

/-! ## Claim theorems for C7 -/

/-- C7 counterexample: the startup script `"\ncd transient-minecraft\nfoo"`
has three lines, the first being empty; because `get_env_startup_script`
calls `.strip()` before `.splitlines()`, the returned script drops that empty
line, so its three lines are not the original three lines plus one inserted
line (which would be four).  The claim's "returns the script's lines
unchanged and in their original order except for exactly one line inserted"
therefore fails on this input. -/
theorem c7_get_env_startup_script_counterexample :
    Cloud.get_env_startup_script "\ncd transient-minecraft\nfoo" ["A"] (fun _ => "x")
      = Except.ok "cd transient-minecraft\necho 'QT0ieCIK' | base64 -d > .env\nfoo\n"
    ∧ pySplitlines "\ncd transient-minecraft\nfoo" = ["", "cd transient-minecraft", "foo"]
    ∧ (pySplitlines
        "cd transient-minecraft\necho 'QT0ieCIK' | base64 -d > .env\nfoo\n").length = 3 :=
  ⟨rfl, rfl, rfl⟩

/-- C7 (amended): For every startup script, the lines of the *stripped*
script (leading and trailing whitespace removed — the counterexample shows
the unstripped lines are not preserved) are returned unchanged and in order,
except for exactly one line inserted immediately after the first line equal
to `cd transient-minecraft`; base64-decoding the inserted line's payload
yields exactly the `NAME="value"` assignment lines, one per required
variable, in order, with values from the environment; and when no line
equals `cd transient-minecraft`, the call raises `ValueError`. -/
theorem c7_get_env_startup_script_amended (script : String) (vars : List String)
    (envf : String → String)
    (hmem : "cd transient-minecraft" ∈ pySplitlines (pyStrip script))
    (hbytes : ∀ c ∈ (envAssignments vars envf).data, c.toNat < 256) :
    (∃ i, listIndex "cd transient-minecraft" (pySplitlines (pyStrip script)) = some i
      ∧ (pySplitlines (pyStrip script)).getD i "" = "cd transient-minecraft"
      ∧ (∀ j, j < i →
          (pySplitlines (pyStrip script)).getD j "" ≠ "cd transient-minecraft")
      ∧ Cloud.get_env_startup_script script vars envf =
          Except.ok (joinLines
            ((pySplitlines (pyStrip script)).take (i + 1)
              ++ [envFileLine vars envf]
              ++ (pySplitlines (pyStrip script)).drop (i + 1))))
    ∧ b64decodeStr (b64encodeStr (envAssignments vars envf)) = envAssignments vars envf
    ∧ (∀ script2, "cd transient-minecraft" ∉ pySplitlines (pyStrip script2) →
        Cloud.get_env_startup_script script2 vars envf = Except.error PyError.valueError) := by
  refine ⟨?_, b64decodeStr_b64encodeStr _ hbytes, ?_⟩
  · cases hidx : listIndex "cd transient-minecraft" (pySplitlines (pyStrip script)) with
    | none => exact absurd hmem ((listIndex_eq_none_iff _ _).mp hidx)
    | some i =>
      obtain ⟨hget, hfirst⟩ := listIndex_some_spec _ _ i hidx
      exact ⟨i, rfl, hget, hfirst, by simp [Cloud.get_env_startup_script, hidx]⟩
  · intro script2 hno
    have hidx := (listIndex_eq_none_iff "cd transient-minecraft"
      (pySplitlines (pyStrip script2))).mpr hno
    simp [Cloud.get_env_startup_script, hidx]

/-- C7 witness: a three-line script with the `cd` line in the middle gets
exactly the one `echo | base64` line inserted after it, the payload decodes
back to `A="x"`, and a script with no `cd` line raises `ValueError`. -/
theorem c7_get_env_startup_script_amended_witness :
    Cloud.get_env_startup_script "set -e\ncd transient-minecraft\n./run.sh"
        ["A"] (fun _ => "x")
      = Except.ok
          "set -e\ncd transient-minecraft\necho 'QT0ieCIK' | base64 -d > .env\n./run.sh\n"
    ∧ b64decodeStr (b64encodeStr (envAssignments ["A"] (fun _ => "x")))
        = envAssignments ["A"] (fun _ => "x")
    ∧ Cloud.get_env_startup_script "echo hi" ["A"] (fun _ => "x")
        = Except.error PyError.valueError := by
  have h := c7_get_env_startup_script_amended "set -e\ncd transient-minecraft\n./run.sh"
    ["A"] (fun _ => "x") (by decide) (by decide)
  exact ⟨rfl, h.2.1, h.2.2 "echo hi" (by decide)⟩

/-! ## Claim theorem for C8 -/

/-- C8: `kill_instance` tears down the compute instance the server runs on.
`GCloud.kill_instance` reads the instance name from the metadata server and
deletes exactly that instance, in the project and zone configured by
`GCLOUD_PROJECT_ID` and `GCLOUD_ZONE`.  `AWSCloud.kill_instance` runs only
`sudo shutdown now`, and that shutdown terminates the instance because the
`run-instances` invocation of `AWSCloud.create_instance` always carries the
`--instance-initiated-shutdown-behavior terminate` flag pair. -/
theorem c8_kill_instance_teardown :
    (∀ env name, GCloud.kill_instance env name =
      [GcpCall.metadataGetName,
       GcpCall.deleteInstance (env "GCLOUD_PROJECT_ID") (env "GCLOUD_ZONE") name])
    ∧ AWSCloud.kill_instance_cmds = ["sudo shutdown now"]
    ∧ (∀ uri, ∃ pre post, AWSCloud.run_instances_args uri =
        pre ++ ["--instance-initiated-shutdown-behavior", "terminate"] ++ post) := by
  refine ⟨fun env name => rfl, rfl, ?_⟩
  intro uri
  exact ⟨["python", "-m", "awscli", "ec2", "run-instances",
          "--image-id", "ami-056ee704806822732",
          "--instance-type", "t2.micro",
          "--user-data", uri],
         ["--key-name", "id_aws", "--security-groups", "minecraft"], rfl⟩

/-- C8 witness: the deletion call for a concrete environment and metadata
answer, and the flag pair inside the concrete `run-instances` token list. -/
theorem c8_kill_instance_teardown_witness :
    GCloud.kill_instance
        (fun v => if v = "GCLOUD_PROJECT_ID" then "proj-1" else "us-west1-a")
        "mc-server-1234" =
      [GcpCall.metadataGetName,
       GcpCall.deleteInstance "proj-1" "us-west1-a" "mc-server-1234"]
    ∧ "--instance-initiated-shutdown-behavior" ∈
        AWSCloud.run_instances_args "file://tmp123" := by
  have h := c8_kill_instance_teardown
  refine ⟨?_, by decide⟩
  have h1 := h.1 (fun v => if v = "GCLOUD_PROJECT_ID" then "proj-1" else "us-west1-a")
    "mc-server-1234"
  simpa using h1
